import Mathlib

/-!
Verification development for the Enduro Tracker telemetry pipeline.

Shallow embedding of the pipeline code:
- `src/db/models.py`           : table rows become Lean structures.
- `src/workers/parse_worker.py`: `_convert_fix` and `_process_batch_once`.
- `src/utils/gpx.py`           : `_parse_text_fixes`, `filter_fixes_by_window`,
                                 `_build_geojson_string`, `gpx_to_geojson`.
- `src/api/ingest.py`          : `upload` and `upload_text`.
- `src/workers/gpx_worker.py`  : the live cache tick.

Modelling conventions, stated once here:
- Machine floats are modelled as exact rationals; every arithmetic operation
  performed by the code on the values used in this development (division by a
  power of ten, rounding to six decimal places) is exact in IEEE double
  precision for those values, so the rational semantics agrees with the float
  semantics on this domain.
- Epoch timestamps in the device logs are JSON integers; they are modelled as
  `Int`, with `none` standing for a missing or non-numeric value (where the
  Python code would take an exception path, e.g. `int(None)`).
- JSON parsing of a raw payload or of one log line is modelled by handing the
  functions the parse result directly (`Except`/`Option`), since no claim is
  about the JSON grammar itself.
- Database sessions are modelled by explicit state records; a table is a list
  of rows kept in primary key order for tables only ever appended to.
-/

namespace Enduro

/-- One row of the `points` table (`src/db/models.py`, class `Point`).
Numeric float columns are rationals, nullable columns are `Option`. -/
structure Point where
  device_id : String
  t_epoch : Int
  lat : ℚ
  lon : ℚ
  ele : Option ℚ := none
  sog : Option ℚ := none
  cog : Option ℚ := none
  fx : Option Int := none
  hdop : Option ℚ := none
  nsat : Option Int := none
  deriving Repr, DecidableEq

/-- Worker configuration constant `BATCH_SIZE` from `parse_worker.py`. -/
def BATCH_SIZE : Nat := 200

/-- Model of `parse_worker._convert_fix`: decode one compact positional fix
array `[utc, lat1e6, lon1e6, alt10, sog100, cog10, fx, hdop10, nsat]` into a
`Point`, taking the `SCALE_INPUT = True` branch that the source fixes.  A list
of any other length fails tuple unpacking, a `none` utc fails `int(None)`, and
a missing lat or lon fails the defensive check; all three paths return `none`
(the fix is dropped). -/
def _convert_fix (row : List (Option Int)) (device_id : String) : Option Point :=
  match row with
  | [utc, lat1e6, lon1e6, alt10, sog100, cog10, fx, hdop10, nsat] =>
    match utc with
    | none => none
    | some u =>
      let lat := lat1e6.map (fun n => (n : ℚ) / 1000000)
      let lon := lon1e6.map (fun n => (n : ℚ) / 1000000)
      let ele := alt10.map (fun n => (n : ℚ) / 10)
      let sog := sog100.map (fun n => (n : ℚ) / 100)
      let cog := cog10.map (fun n => (n : ℚ) / 10)
      let hdop := hdop10.map (fun n => (n : ℚ) / 10)
      match lat, lon with
      | some la, some lo =>
        some { device_id := device_id, t_epoch := u, lat := la, lon := lo,
               ele := ele, sog := sog, cog := cog, fx := fx, hdop := hdop, nsat := nsat }
      | _, _ => none
  | _ => none

/-- A cleaned text-log fix as produced by `_parse_text_fixes` and consumed by
the track builders (a Python dict with these keys).  `utc` stays optional
because `filter_fixes_by_window` must also handle dicts whose timestamp is
missing or non-numeric. -/
structure Fix where
  utc : Option Int
  lat : ℚ
  lon : ℚ
  alt : Option ℚ := none
  sog : Option ℚ := none
  cog : Option ℚ := none
  fx : Option Int := none
  hdop : Option ℚ := none
  nsat : Option Int := none
  deriving Repr, DecidableEq

/-- The fields of one decoded text-log line (the dict produced by `json.loads`
on that line); each `.get` result is optional. -/
structure LineObj where
  utc : Option Int := none
  lat : Option ℚ := none
  lon : Option ℚ := none
  alt : Option ℚ := none
  sog : Option ℚ := none
  cog : Option ℚ := none
  fx : Option Int := none
  hdop : Option ℚ := none
  nsat : Option Int := none
  deriving Repr, DecidableEq

/-- Model of `gpx._parse_text_fixes`.  The input list holds one entry per
non-blank line: `none` when `json.loads` raises on that line, otherwise the
decoded object.  A line is kept only when `utc`, `lat` and `lon` are all
present and none of them equals `0` (the source tests membership in
`(None, 0, 0.0)`, which for JSON numbers is exactly the zero test). -/
def _parse_text_fixes (lines : List (Option LineObj)) : List Fix :=
  lines.filterMap fun line =>
    match line with
    | none => none
    | some o =>
      match o.utc, o.lat, o.lon with
      | some u, some la, some lo =>
        if u = 0 ∨ la = 0 ∨ lo = 0 then none
        else some { utc := some u, lat := la, lon := lo, alt := o.alt, sog := o.sog,
                    cog := o.cog, fx := o.fx, hdop := o.hdop, nsat := o.nsat }
      | _, _, _ => none

/-- The survival test of `gpx.filter_fixes_by_window` for a timestamp `t`:
inside the closed window, where either bound may be absent. -/
def windowKeep (start_epoch finish_epoch : Option Int) (t : Int) : Bool :=
  (match start_epoch with | none => true | some s => decide (s ≤ t)) &&
  (match finish_epoch with | none => true | some f => decide (t ≤ f))

/-- Model of `gpx.filter_fixes_by_window`.  When both bounds are `None` the
input list is returned as is (including fixes with unusable timestamps);
otherwise a fix survives iff its `utc` coerces to an integer and lies within
the supplied bounds. -/
def filter_fixes_by_window (fixes : List Fix)
    (start_epoch : Option Int := none) (finish_epoch : Option Int := none) : List Fix :=
  if start_epoch = none ∧ finish_epoch = none then fixes
  else fixes.filter fun p =>
    match p.utc with
    | none => false
    | some t => windowKeep start_epoch finish_epoch t

/-! ### Fix Decoder: `parse_worker._process_batch_once` and the raw store -/

/-- The decoded content of a stored raw payload: `json.loads` yields a dict
with `device_id` (always a string, because `ingest.upload` only stores payloads
whose `pid` passed `isinstance(device_id, str)`) and the fix array `f`. -/
structure Payload where
  device_id : String
  f : List (List (Option Int))
  deriving Repr, DecidableEq

/-- One row of the `ingest_raw` table.  `payload` is the outcome of
`json.loads(payload_json)`: `Except.error msg` models the exception (with its
text) raised on a malformed payload. -/
structure RawRow where
  id : Nat
  device_id : String
  payload : Except String Payload
  received_at_epoch : Int := 0
  processed_at : Option Int := none
  parse_error : Option String := none
  deriving Repr

instance : DecidableEq (Except String Payload) := fun a b =>
  match a, b with
  | Except.ok x, Except.ok y =>
    if h : x = y then isTrue (by rw [h]) else isFalse (by simp [h])
  | Except.error x, Except.error y =>
    if h : x = y then isTrue (by rw [h]) else isFalse (by simp [h])
  | Except.ok _, Except.error _ => isFalse (by simp)
  | Except.error _, Except.ok _ => isFalse (by simp)

instance : DecidableEq RawRow := fun a b => by
  cases a; cases b
  refine decidable_of_iff _ (Iff.of_eq (RawRow.mk.injEq _ _ _ _ _ _ _ _ _ _ _ _)).symm

/-- Raw store plus points table: the state threaded through ingest and the
fix-decoder batches. -/
structure PipelineState where
  raw : List RawRow
  points : List Point
  deriving Repr, DecidableEq

/-- The empty database. -/
def emptyPipeline : PipelineState := { raw := [], points := [] }

/-- Model of the storing step of `ingest.upload` for a schema-valid request:
append one `ingest_raw` row holding the (re-serialized) payload.  Row ids are
assigned in arrival order. -/
def submitRawFixes (device_id : String) (fixes : List (List (Option Int)))
    (received : Int) (s : PipelineState) : PipelineState :=
  { s with raw := s.raw ++
      [{ id := s.raw.length, device_id := device_id,
         payload := Except.ok { device_id := device_id, f := fixes },
         received_at_epoch := received, processed_at := none, parse_error := none }] }

/-- Two points collide on the `ux_points_device_time` unique constraint. -/
def sameKey (p q : Point) : Bool :=
  p.device_id = q.device_id && p.t_epoch = q.t_epoch

/-- The fallback slow path of the bulk insert in `_process_batch_once`: insert
row by row, rolling back (skipping) any row that collides with a point already
in the table.  First write wins. -/
def perRowInsert (pts : List Point) (db : List Point) : List Point :=
  pts.foldl (fun acc p => if acc.any (fun q => sameKey p q) then acc else acc ++ [p]) db

/-- No key collision inside the batch itself. -/
def batchKeysDistinct : List Point → Bool
  | [] => true
  | p :: rest => !rest.any (fun q => sameKey p q) && batchKeysDistinct rest

/-- The bulk `add_all` + `commit` succeeds iff no inserted row violates the
unique constraint, against the table or within the batch. -/
def bulkOk (pts : List Point) (db : List Point) : Bool :=
  pts.all (fun p => !db.any (fun q => sameKey p q)) && batchKeysDistinct pts

/-- Point insertion of `_process_batch_once`: try the bulk insert; on an
`IntegrityError` roll back and fall through to the per-row path. -/
def insertPoints (pts : List Point) (db : List Point) : List Point :=
  if bulkOk pts db then db ++ pts else perRowInsert pts db

/-- Decode the fix list of one raw row into points, dropping fixes that
`_convert_fix` rejects (`data.get("f", [])` over the parsed payload). -/
def decodeRawPoints (r : RawRow) : List Point :=
  match r.payload with
  | Except.ok d => d.f.filterMap (fun fx => _convert_fix fx d.device_id)
  | Except.error _ => []

/-- The bookkeeping values the loop body assigns to one fetched row: always
`processed_at = now`; `parse_error` is cleared on success and set to the
exception text truncated to 500 characters on failure. -/
def markRow (now : Int) (r : RawRow) : RawRow :=
  match r.payload with
  | Except.ok _ => { r with processed_at := some now, parse_error := none }
  | Except.error e => { r with processed_at := some now, parse_error := some (e.take 500) }

/-- The fetch query of `_process_batch_once`: unprocessed rows, oldest id
first (list order is id order), at most `BATCH_SIZE`. -/
def fetchUnprocessed (s : PipelineState) : List RawRow :=
  (s.raw.filter (fun r => r.processed_at.isNone)).take BATCH_SIZE

/-- Model of `parse_worker._process_batch_once` under a reachable database
(no connection failures).  Control flow mirrored from the source:
- fetch a batch of unprocessed rows; if none, return unchanged;
- decode every row, recording per-row marks, and gather all points;
- if there is nothing to insert, the final `session.commit()` persists the
  marks;
- if the bulk insert succeeds, the same commit persists marks and points
  together;
- if the bulk insert raises `IntegrityError`, `session.rollback()` discards
  the still-pending mark assignments, the per-row fallback commits only the
  point inserts, and the final commit is a no-op — so in this path the marks
  are lost and the rows stay unprocessed. -/
def _process_batch_once (now : Int) (s : PipelineState) : PipelineState :=
  let rows := fetchUnprocessed s
  if rows.isEmpty then s
  else
    let to_insert := rows.flatMap decodeRawPoints
    let marksKept := to_insert.isEmpty || bulkOk to_insert s.points
    let points' := if to_insert.isEmpty then s.points else insertPoints to_insert s.points
    let raw' :=
      if marksKept then
        s.raw.map (fun r => if (rows.map RawRow.id).contains r.id then markRow now r else r)
      else s.raw
    { raw := raw', points := points' }

/-! ### Track Builder: GeoJSON serialization and the GPX round trip -/

/-- Model of `repr(float)` as used by `json.dumps` for a float whose exact
value is a decimal with at most 17 fractional digits (the only floats this
development produces): the shortest decimal form, with a forced `.0` on
integral values.  `decExp q` is the number of fractional digits of that
shortest form. -/
def decExp (q : ℚ) : Nat :=
  (((List.range 18).find? (fun k => (q * 10 ^ k).den = 1)).getD 17)

/-- Decimal rendering of a rational in Python float-repr style (see
`decExp`). -/
def pyFloatStr (q : ℚ) : String :=
  let k := decExp q
  let scaled : Int := (q * 10 ^ k).num
  let sign := if q < 0 then "-" else ""
  let digits := toString scaled.natAbs
  if k = 0 then sign ++ digits ++ ".0"
  else
    let padded := String.mk (List.replicate (k + 1 - digits.length) '0') ++ digits
    sign ++ padded.take (padded.length - k) ++ "." ++ padded.drop (padded.length - k)

/-- Compact JSON for one `[lon, lat]` coordinate pair. -/
def coordPairJson (c : ℚ × ℚ) : String :=
  "[" ++ pyFloatStr c.1 ++ "," ++ pyFloatStr c.2 ++ "]"

/-- Compact JSON for the coordinate array. -/
def coordsJson (coords : List (ℚ × ℚ)) : String :=
  "[" ++ String.intercalate "," (coords.map coordPairJson) ++ "]"

/-- The `FeatureCollection` dict both serializers in `gpx.py` build, rendered
by `json.dumps(..., separators=(",", ":"))`: insertion order `type, features`;
feature order `type, properties, geometry`; the only difference between the
two call sites is the `src` property. -/
def featureCollectionJson (src : String) (coords : List (ℚ × ℚ)) : String :=
  "\x7b\"type\":\"FeatureCollection\",\"features\":[\x7b\"type\":\"Feature\",\"properties\":\x7b\"src\":\""
    ++ src
    ++ "\"\x7d,\"geometry\":\x7b\"type\":\"LineString\",\"coordinates\":"
    ++ coordsJson coords
    ++ "\x7d\x7d]\x7d"

/-- Model of `gpx._build_geojson_string`: one LineString feature with
`src = "text_log"`, coordinates `[lon, lat]` in input order. -/
def _build_geojson_string (fixes : List Fix) : String :=
  featureCollectionJson "text_log" (fixes.map (fun p => (p.lon, p.lat)))

/-- Round-half-even to an integer, as IEEE formatting does. -/
def roundHalfEven (q : ℚ) : Int :=
  let f := ⌊q⌋
  let r := q - f
  if r < 1 / 2 then f
  else if 1 / 2 < r then f + 1
  else if f % 2 = 0 then f else f + 1

/-- Quantize to six decimal places with round-half-even: the effect of
printing a coordinate with six-decimal fixed-point formatting (.6f) and parsing the text back. -/
def round6 (q : ℚ) : ℚ := (roundHalfEven (q * 1000000) : ℚ) / 1000000

/-- Model of `gpxpy.parse(_build_gpx_string(fixes))` restricted to the data
`gpx_to_geojson` reads back: `_build_gpx_string` emits one `trkpt` per fix
with `lat` and `lon` printed at six-decimal fixed-point precision, so the reparsed track points carry
the coordinates quantized to six decimal places, in input order. -/
def gpxRoundTrippedFixes (fixes : List Fix) : List Fix :=
  fixes.map (fun p => { p with lat := round6 p.lat, lon := round6 p.lon })

/-- Model of `gpx.gpx_to_geojson` applied to parsed track points: collect
`[lon, lat]` pairs; with no points the source returns `(False, message)`,
modelled as `none`; otherwise the compact `FeatureCollection` with
`src = "gpx"`. -/
def gpx_to_geojson (pts : List Fix) : Option String :=
  let coords := pts.map (fun p => (p.lon, p.lat))
  if coords.isEmpty then none
  else some (featureCollectionJson "gpx" coords)

/-! ### Archive Writer: `ingest.upload_text` -/

/-- One row of `race_riders`, restricted to the columns the pipeline reads
(`id`, `device_id` and the rfid timing marks). -/
structure RaceRider where
  id : Nat
  device_id : String
  start_time_rfid_epoch : Option Int := none
  finish_time_rfid_epoch : Option Int := none
  deriving Repr, DecidableEq

/-- One row of `track_hist`.  The `gpx` and `raw_txt` payload columns are
carried as the filtered fixes they are serialized from; no claim inspects the
XML text. -/
structure TrackHistRow where
  race_rider_id : Nat
  geojson : String
  fixes : List Fix
  updated_at_epoch : Int
  deriving Repr, DecidableEq

/-- Insertion step for `ORDER BY id ASC`. -/
def insertById (r : RaceRider) : List RaceRider → List RaceRider
  | [] => [r]
  | x :: xs => if r.id ≤ x.id then r :: x :: xs else x :: insertById r xs

/-- The `ORDER BY id ASC` of the race-rider query, as an insertion sort. -/
def sortById (l : List RaceRider) : List RaceRider := l.foldr insertById []

/-- Model of `ingest.upload_text` (the archive writer), returning the HTTP
status and the resulting `track_hist` table.  Mirrored from the source:
- parse the text log; with no valid fixes answer 422 and touch nothing;
- fetch all race riders for the device (empty when `device_id` is falsy),
  ordered by id ascending; with none answer 200 and touch nothing;
- the latest entry is the last row (highest id); entries that already have a
  `track_hist` row are skipped unless they are the latest;
- each selected entry filters the same fixes by its own rfid window; an empty
  result skips the entry; otherwise one new row is appended. -/
def upload_text (pid : Option String) (lines : List (Option LineObj))
    (riders : List RaceRider) (hist : List TrackHistRow) (now : Int) :
    Nat × List TrackHistRow :=
  let fixes := _parse_text_fixes lines
  if fixes.isEmpty then (422, hist)
  else
    let rows :=
      match pid with
      | none => []
      | some d => if d = "" then [] else sortById (riders.filter (fun r => r.device_id = d))
    match rows.getLast? with
    | none => (200, hist)
    | some lastRow =>
      let latest := lastRow.id
      let existing :=
        (hist.filter (fun h => (rows.map RaceRider.id).contains h.race_rider_id)).map
          TrackHistRow.race_rider_id
      let targets := rows.filter (fun r => r.id = latest || !existing.contains r.id)
      let newRows := targets.filterMap (fun r =>
        let filtered :=
          filter_fixes_by_window fixes r.start_time_rfid_epoch r.finish_time_rfid_epoch
        if filtered.isEmpty then none
        else some { race_rider_id := r.id, geojson := _build_geojson_string filtered,
                    fixes := filtered, updated_at_epoch := now })
      (200, hist ++ newRows)

/-- Number of archived rows held by one race entry. -/
def countTH (l : List TrackHistRow) (i : Nat) : Nat :=
  (l.filter (fun h => h.race_rider_id = i)).length

/-- The id `upload_text` treats as the most-recent entry of a device: the last
row of the id-ascending race-rider query (`race_rider_rows[-1][0]`). -/
def latestIdFor (riders : List RaceRider) (pid : String) : Option Nat :=
  ((sortById (riders.filter (fun r => r.device_id = pid))).getLast?).map RaceRider.id

/-! ### Raw Store: `ingest.upload` validation -/

/-- A Python value as decoded by `request.get_json`, covering the JSON value
space. -/
inductive PyVal where
  | pynull
  | pybool (b : Bool)
  | pyint (n : Int)
  | pyfloat (q : ℚ)
  | pystr (s : String)
  | pylist (l : List PyVal)
  | pydict (d : List (String × PyVal))

/-- Python truthiness of a JSON-decoded value. -/
def PyVal.truthy : PyVal → Bool
  | .pynull => false
  | .pybool b => b
  | .pyint n => n ≠ 0
  | .pyfloat q => q ≠ 0
  | .pystr s => s ≠ ""
  | .pylist l => !l.isEmpty
  | .pydict d => !d.isEmpty

/-- Python `dict.get(k)` with default `None` on a decoded JSON object. -/
def pyGet (d : List (String × PyVal)) (k : String) : PyVal :=
  ((d.find? (fun kv => kv.1 = k)).map Prod.snd).getD PyVal.pynull

/-- Model of `ingest.upload`, returning the HTTP status and whether a raw row
was stored.  `none` models a missing or unparsable JSON body (`get_json`
returns `None`).  Mirrored from the source: a falsy body answers 400; a truthy
non-dict body hits `data.get` and raises (Flask answers 500); otherwise the
row is stored iff `pid` is a string — empty included, only `isinstance` is
checked — and `f` is a list. -/
def upload (body : Option PyVal) : Nat × Bool :=
  match body with
  | none => (400, false)
  | some v =>
    if !v.truthy then (400, false)
    else
      match v with
      | PyVal.pydict d =>
        match pyGet d "pid", pyGet d "f" with
        | PyVal.pystr _, PyVal.pylist _ => (200, true)
        | _, _ => (422, false)
      | _ => (500, false)

/-! ### Live Cache Worker: `gpx_worker.main` -/

/-- One row of `track_cache`, keyed by `race_rider_id`. -/
structure TrackCacheRow where
  race_rider_id : Nat
  geojson : String
  updated_at_epoch : Int
  deriving Repr, DecidableEq

/-- The state one worker tick reads and writes: the two tables it queries, the
cache table it upserts, and the in-memory watermark dict `last_max_t`. -/
structure WorkerState where
  points : List Point
  raceRiders : List RaceRider
  trackCache : List TrackCacheRow
  lastMaxT : List (String × Int)
  deriving Repr, DecidableEq

/-- Python `last_max_t.get(did, -1)`. -/
def lookupWm (wm : List (String × Int)) (d : String) : Int :=
  ((wm.find? (fun kv => kv.1 = d)).map Prod.snd).getD (-1)

/-- Python `last_max_t[did] = v`: replace the entry or add one. -/
def setWm (wm : List (String × Int)) (d : String) (v : Int) : List (String × Int) :=
  if wm.any (fun kv => kv.1 = d) then wm.map (fun kv => if kv.1 = d then (d, v) else kv)
  else wm ++ [(d, v)]

/-- The `select max(t_epoch) where device_id = did` query. -/
def maxEpochFor (pts : List Point) (d : String) : Option Int :=
  ((pts.filter (fun p => p.device_id = d)).map Point.t_epoch).max?

/-- The `_distinct_devices` query: distinct `device_id` values of `points`,
with falsy (empty) ids dropped.  SQL leaves the order unspecified; the model
uses first-occurrence order. -/
def _distinct_devices (pts : List Point) : List String :=
  ((pts.map Point.device_id).dedup).filter (fun d => d ≠ "")

/-- Model of `gpx_worker._latest_race_rider_window`: the race rider row for the
device with the highest id, together with its rfid start and finish epochs. -/
def _latest_race_rider_window (riders : List RaceRider) (d : String) :
    Option (Nat × Option Int × Option Int) :=
  let cand := riders.filter (fun r => r.device_id = d)
  (cand.foldl (fun best r =>
      match best with
      | none => some r
      | some b => if b.id < r.id then some r else some b) none).map
    (fun r => (r.id, r.start_time_rfid_epoch, r.finish_time_rfid_epoch))

/-- The cache upsert: replace the row keyed by this race rider, or add one. -/
def upsertCache (cache : List TrackCacheRow) (rid : Nat) (gj : String) (now : Int) :
    List TrackCacheRow :=
  if cache.any (fun c => c.race_rider_id = rid) then
    cache.map (fun c => if c.race_rider_id = rid then
      { race_rider_id := rid, geojson := gj, updated_at_epoch := now } else c)
  else cache ++ [{ race_rider_id := rid, geojson := gj, updated_at_epoch := now }]

/-- Outcome of the `build_geojson_for_device(...)` call in the tick body:
the call can raise, return `(False, error)`, or return `(True, geojson)`. -/
inductive BuildOutcome where
  | raises
  | fails (err : String)
  | built (geojson : String)

/-- The loop body of the tick for one device, mirrored from `gpx_worker.main`:
skip when the device has no points, when the watermark says nothing new
arrived, or when no race rider is linked; otherwise call the builder.  A
raised exception propagates (`Except.error`), a failed build logs and
continues, and a successful build upserts the cache and then advances the
watermark. -/
def deviceStep (build : String → Option Int → Option Int → BuildOutcome)
    (now : Int) (s : WorkerState) (d : String) : Except Unit WorkerState :=
  match maxEpochFor s.points d with
  | none => Except.ok s
  | some tmax =>
    if tmax ≤ lookupWm s.lastMaxT d then Except.ok s
    else
      match _latest_race_rider_window s.raceRiders d with
      | none => Except.ok s
      | some (rid, se, fe) =>
        match build d se fe with
        | BuildOutcome.raises => Except.error ()
        | BuildOutcome.fails _ => Except.ok s
        | BuildOutcome.built gj =>
          Except.ok { s with trackCache := upsertCache s.trackCache rid gj now,
                             lastMaxT := setWm s.lastMaxT d tmax }

/-- Fold of `deviceStep` over the device list.  An exception aborts the rest of
the tick (it is caught outside the `for` loop); the rollback discards only the
failing step, so the state committed so far is kept. -/
def tickGo (build : String → Option Int → Option Int → BuildOutcome) (now : Int) :
    List String → WorkerState → WorkerState
  | [], s => s
  | d :: ds, s =>
    match deviceStep build now s d with
    | Except.ok s' => tickGo build now ds s'
    | Except.error _ => s

/-- One full tick of the live cache worker, parameterized by the behavior of
the `build_geojson_for_device` call. -/
def tickWith (build : String → Option Int → Option Int → BuildOutcome)
    (now : Int) (s : WorkerState) : WorkerState :=
  tickGo build now (_distinct_devices s.points) s

/-- The parameter names accepted by `gpx.build_geojson_for_device`
(`def build_geojson_for_device(device_id, session, out_dir, save)`). -/
def build_geojson_for_device_params : List String :=
  ["device_id", "session", "out_dir", "save"]

/-- The keyword arguments `gpx_worker.main` passes to
`build_geojson_for_device`. -/
def gpx_worker_build_call_kwargs : List String :=
  ["device_id", "session", "save", "start_epoch", "finish_epoch"]

/-- A Python call raises `TypeError` when it passes a keyword argument the
callee does not declare. -/
def callHasUnexpectedKwarg : Bool :=
  gpx_worker_build_call_kwargs.any (fun k => !build_geojson_for_device_params.contains k)

/-- The actual behavior of the builder call in `gpx_worker.main`: it always
raises `TypeError`, because the call passes the keyword arguments
`start_epoch` and `finish_epoch` that `build_geojson_for_device` does not
declare (see `callHasUnexpectedKwarg`); Python rejects the call before the
function body runs. -/
def gpx_worker_build : String → Option Int → Option Int → BuildOutcome :=
  fun _ _ _ => BuildOutcome.raises

/-- One tick of the worker as shipped. -/
def gpx_worker_tick (now : Int) (s : WorkerState) : WorkerState :=
  tickWith gpx_worker_build now s

/-! ### Concrete fixtures used by the theorems -/

/-- The fix tuple of the Scenario A claim, as written in the spec. -/
def row374 : List (Option Int) :=
  [some 1700000000, some 374000000, some (-1220000000), none, none, none, some 1, none, some 8]

/-- The fix tuple whose de-scaling by the documented divisors actually gives
lat 37.4 and lon -122.0. -/
def row37 : List (Option Int) :=
  [some 1700000000, some 37400000, some (-122000000), none, none, none, some 1, none, some 8]

/-- The point `row37` decodes to (lat and lon written as the de-scaling
quotients the decoder computes). -/
def point37 : Point :=
  { device_id := "pi-1", t_epoch := 1700000000,
    lat := ((37400000 : Int) : ℚ) / 1000000, lon := ((-122000000 : Int) : ℚ) / 1000000,
    fx := some 1, nsat := some 8 }

/-- The point `row374` decodes to. -/
def point374 : Point :=
  { device_id := "pi-1", t_epoch := 1700000000,
    lat := ((374000000 : Int) : ℚ) / 1000000, lon := ((-1220000000 : Int) : ℚ) / 1000000,
    fx := some 1, nsat := some 8 }

/-- Pipeline state after one submission of `row37` and one decoder batch. -/
def c8s1 : PipelineState :=
  _process_batch_once 5 (submitRawFixes "pi-1" [row37] 1 emptyPipeline)

/-- Pipeline state after resubmitting the same payload and running a second
decoder batch. -/
def c8s2 : PipelineState :=
  _process_batch_once 6 (submitRawFixes "pi-1" [row37] 2 c8s1)

/-- A text-log fix with the given timestamp (Scenario C shape). -/
def fixAt (u : Int) : Fix := { utc := some u, lat := 1, lon := 1 }

/-- A log line whose fix has timestamp 100. -/
def line100 : LineObj := { utc := some 100, lat := some 1, lon := some 1 }

/-- A race rider of device pi-1 whose rfid start mark (200) excludes the
`line100` fix. -/
def rrStart200 : RaceRider :=
  { id := 1, device_id := "pi-1", start_time_rfid_epoch := some 200 }

/-- Worker-tick state: one point and one linked race rider for pi-1, empty
cache, empty watermark map — a rebuild is due. -/
def wsDemo : WorkerState :=
  { points := [point37], raceRiders := [{ id := 1, device_id := "pi-1" }],
    trackCache := [], lastMaxT := [] }

/-- A fix with sub-degree coordinates exactly representable at one decimal
place. -/
def fix15 : Fix := { utc := some 100, lat := 3 / 2, lon := 5 / 2 }

/-- Scenario B, finished entry: id 1 on device pi-1. -/
def rrOne : RaceRider := { id := 1, device_id := "pi-1" }

/-- Scenario B, in-progress entry: id 2 on device pi-1 (the most recent). -/
def rrTwo : RaceRider := { id := 2, device_id := "pi-1" }

/-- Scenario B: the existing archive row of entry 1. -/
def histRow1 : TrackHistRow :=
  { race_rider_id := 1, geojson := "g", fixes := [], updated_at_epoch := 0 }

/-- Worker-tick state whose watermark already equals the maximum point epoch
for pi-1: the gate must skip. -/
def wsSkip : WorkerState :=
  { points := [point37], raceRiders := [{ id := 1, device_id := "pi-1" }],
    trackCache := [], lastMaxT := [("pi-1", 1700000000)] }

/-! ### Helper lemmas -/

/-- Windowing never invents fixes: survivors come from the input list. -/
theorem mem_of_mem_filter_window {fixes : List Fix} {s f : Option Int} {p : Fix}
    (h : p ∈ filter_fixes_by_window fixes s f) : p ∈ fixes := by
  unfold filter_fixes_by_window at h
  split at h
  · exact h
  · exact (List.mem_filter.mp h).1

/-- Every fix produced by the text-log parser has its three required fields
present and nonzero. -/
theorem parse_text_fixes_mem {lines : List (Option LineObj)} {g : Fix}
    (h : g ∈ _parse_text_fixes lines) :
    g.utc ≠ none ∧ g.utc ≠ some 0 ∧ g.lat ≠ 0 ∧ g.lon ≠ 0 := by
  unfold _parse_text_fixes at h
  obtain ⟨line, hline, hfn⟩ := List.mem_filterMap.mp h
  cases line with
  | none => simp at hfn
  | some o =>
    rcases hu : o.utc with _ | u <;> rcases hla : o.lat with _ | la <;>
      rcases hlo : o.lon with _ | lo <;> simp [hu, hla, hlo] at hfn
    obtain ⟨⟨hu0, hla0, hlo0⟩, hg⟩ := hfn
    subst hg
    exact ⟨by simp, by simp [hu0], hla0, hlo0⟩

/-! ### Insertion lemmas for the fix decoder -/

theorem sameKey_refl (p : Point) : sameKey p p = true := by
  simp [sameKey]

theorem sameKey_symm {p q : Point} (h : sameKey p q = true) : sameKey q p = true := by
  simp [sameKey] at h ⊢
  exact ⟨h.1.symm, h.2.symm⟩

theorem sameKey_comm (p q : Point) : sameKey p q = sameKey q p := by
  by_cases h : sameKey p q = true
  · rw [h, sameKey_symm h]
  · have h2 : sameKey q p ≠ true := fun hh => h (sameKey_symm hh)
    simp only [Bool.not_eq_true] at h h2
    rw [h, h2]

theorem perRowInsert_nil (db : List Point) : perRowInsert [] db = db := rfl

theorem perRowInsert_cons (p : Point) (rest db : List Point) :
    perRowInsert (p :: rest) db =
      perRowInsert rest (if db.any (fun q => sameKey p q) then db else db ++ [p]) := by
  unfold perRowInsert
  rw [List.foldl_cons]

theorem mem_perRowInsert_of_mem_db (pts : List Point) :
    ∀ (db : List Point) (x : Point), x ∈ db → x ∈ perRowInsert pts db := by
  induction pts with
  | nil => intro db x h; exact h
  | cons a rest ih =>
    intro db x h
    rw [perRowInsert_cons]
    by_cases hc : db.any (fun q => sameKey a q) = true
    · rw [if_pos hc]; exact ih db x h
    · rw [if_neg hc]; exact ih (db ++ [a]) x (List.mem_append_left _ h)

theorem perRowInsert_covers (pts : List Point) :
    ∀ (db : List Point) (p : Point), p ∈ pts →
      ∃ q ∈ perRowInsert pts db, sameKey p q = true := by
  induction pts with
  | nil => intro db p h; cases h
  | cons a rest ih =>
    intro db p hp
    rw [perRowInsert_cons]
    rcases List.mem_cons.mp hp with rfl | hp2
    · by_cases hc : db.any (fun q => sameKey p q) = true
      · rw [if_pos hc]
        obtain ⟨q, hq, hsk⟩ := List.any_eq_true.mp hc
        exact ⟨q, mem_perRowInsert_of_mem_db rest db q hq, hsk⟩
      · rw [if_neg hc]
        exact ⟨p, mem_perRowInsert_of_mem_db rest (db ++ [p]) p (by simp), sameKey_refl p⟩
    · exact ih _ p hp2

theorem perRowInsert_noop (pts : List Point) :
    ∀ db : List Point, (∀ p ∈ pts, ∃ q ∈ db, sameKey p q = true) →
      perRowInsert pts db = db := by
  induction pts with
  | nil => intro db _; rfl
  | cons a rest ih =>
    intro db h
    have hc : db.any (fun q => sameKey a q) = true := by
      obtain ⟨q, hq, hsk⟩ := h a (by simp)
      exact List.any_eq_true.mpr ⟨q, hq, hsk⟩
    rw [perRowInsert_cons, if_pos hc]
    exact ih db (fun p hp => h p (List.mem_cons_of_mem a hp))

theorem batchKeysDistinct_cons {a : Point} {rest : List Point}
    (h : batchKeysDistinct (a :: rest) = true) :
    rest.any (fun q => sameKey a q) = false ∧ batchKeysDistinct rest = true := by
  unfold batchKeysDistinct at h
  simp only [Bool.and_eq_true, Bool.not_eq_true'] at h
  exact h

theorem perRowInsert_of_bulkOk (pts : List Point) :
    ∀ db : List Point, bulkOk pts db = true → perRowInsert pts db = db ++ pts := by
  induction pts with
  | nil => intro db _; simp [perRowInsert]
  | cons a rest ih =>
    intro db h
    unfold bulkOk at h
    simp only [Bool.and_eq_true, List.all_cons, Bool.not_eq_true'] at h
    obtain ⟨⟨hna, hall⟩, hbd⟩ := h
    obtain ⟨hhead, hbd2⟩ := batchKeysDistinct_cons hbd
    rw [perRowInsert_cons, if_neg (by simp [hna])]
    have hok : bulkOk rest (db ++ [a]) = true := by
      unfold bulkOk
      simp only [Bool.and_eq_true]
      refine ⟨List.all_eq_true.mpr ?_, hbd2⟩
      intro p hp
      have h1 : db.any (fun q => sameKey p q) = false :=
        Bool.not_eq_true' .. |>.mp (by
          have := List.all_eq_true.mp (List.all_eq_true.mpr
            (fun x hx => List.all_eq_true.mp hall x hx)) p hp
          simpa using this)
      have h2 : sameKey p a = false := by
        rw [sameKey_comm]
        by_contra hcon
        rw [Bool.not_eq_false] at hcon
        have := List.any_eq_true.mpr ⟨p, hp, hcon⟩
        rw [hhead] at this
        cases this
      simp [List.any_append, h1, h2]
    rw [ih (db ++ [a]) hok, List.append_assoc, List.singleton_append]

theorem insertPoints_eq_perRowInsert (pts db : List Point) :
    insertPoints pts db = perRowInsert pts db := by
  unfold insertPoints
  by_cases h : bulkOk pts db = true
  · rw [if_pos h, perRowInsert_of_bulkOk pts db h]
  · rw [if_neg h]

/-! ### Batch evaluation lemmas for the fix decoder -/

theorem markRow_payload (n : Int) (r : RawRow) : (markRow n r).payload = r.payload := by
  unfold markRow
  split <;> rfl

theorem decodeRawPoints_of_payload {r : RawRow} {d : Payload}
    (h : r.payload = Except.ok d) :
    decodeRawPoints r = d.f.filterMap (fun fx => _convert_fix fx d.device_id) := by
  unfold decodeRawPoints
  rw [h]

theorem mem_raw_of_mem_fetch {s : PipelineState} {r : RawRow}
    (h : r ∈ fetchUnprocessed s) : r ∈ s.raw := by
  unfold fetchUnprocessed at h
  exact (List.mem_filter.mp (List.take_subset _ _ h)).1

theorem batch_raw_length (n : Int) (s : PipelineState) :
    (_process_batch_once n s).raw.length = s.raw.length := by
  simp only [_process_batch_once]
  split
  · rfl
  · split
    · simp
    · rfl

theorem submit_raw_length (dev : String) (fixes : List (List (Option Int)))
    (r : Int) (s : PipelineState) :
    (submitRawFixes dev fixes r s).raw.length = s.raw.length + 1 := by
  simp [submitRawFixes]

theorem batch_raw_payload {n : Int} {s : PipelineState} {r : RawRow}
    (h : r ∈ (_process_batch_once n s).raw) : ∃ r0 ∈ s.raw, r.payload = r0.payload := by
  simp only [_process_batch_once] at h
  split at h
  · exact ⟨r, h, rfl⟩
  · split at h
    · obtain ⟨r0, hr0, hfr⟩ := List.mem_map.mp h
      by_cases hc : ((fetchUnprocessed s).map RawRow.id).contains r0.id = true
      · rw [if_pos hc] at hfr
        exact ⟨r0, hr0, by rw [← hfr, markRow_payload]⟩
      · rw [if_neg hc] at hfr
        exact ⟨r0, hr0, by rw [← hfr]⟩
    · exact ⟨r, h, rfl⟩

theorem batch_points_noop (n : Int) (s : PipelineState) (D : List Point)
    (hdec : ∀ r ∈ fetchUnprocessed s, decodeRawPoints r = D)
    (hcov : ∀ p ∈ D, ∃ q ∈ s.points, sameKey p q = true) :
    (_process_batch_once n s).points = s.points := by
  have key : (if ((fetchUnprocessed s).flatMap decodeRawPoints).isEmpty = true then s.points
      else insertPoints ((fetchUnprocessed s).flatMap decodeRawPoints) s.points)
        = s.points := by
    split
    · rfl
    · rw [insertPoints_eq_perRowInsert]
      apply perRowInsert_noop
      intro p hp
      obtain ⟨r, hr, hpr⟩ := List.mem_flatMap.mp hp
      rw [hdec r hr] at hpr
      exact hcov p hpr
  simp only [_process_batch_once]
  split
  · rfl
  · exact key

theorem batch_covers (n : Int) (s : PipelineState) {r : RawRow}
    (hr : r ∈ fetchUnprocessed s) :
    ∀ p ∈ decodeRawPoints r, ∃ q ∈ (_process_batch_once n s).points, sameKey p q = true := by
  intro p hp
  have hp2 : p ∈ (fetchUnprocessed s).flatMap decodeRawPoints :=
    List.mem_flatMap.mpr ⟨r, hr, hp⟩
  have hfe : (fetchUnprocessed s).isEmpty = false := by
    cases hfet : fetchUnprocessed s with
    | nil => rw [hfet] at hr; cases hr
    | cons a l => rfl
  have hte : ((fetchUnprocessed s).flatMap decodeRawPoints).isEmpty = false := by
    cases hto : (fetchUnprocessed s).flatMap decodeRawPoints with
    | nil => rw [hto] at hp2; cases hp2
    | cons a l => rfl
  have key : ∃ q ∈ insertPoints ((fetchUnprocessed s).flatMap decodeRawPoints) s.points,
      sameKey p q = true := by
    rw [insertPoints_eq_perRowInsert]
    exact perRowInsert_covers _ _ p hp2
  simp only [_process_batch_once, hfe, hte, Bool.false_eq_true, if_false]
  exact key

/-! ### Counting lemmas for the archive writer -/

theorem filter_window_nil (s f : Option Int) : filter_fixes_by_window [] s f = [] := by
  unfold filter_fixes_by_window
  split <;> rfl

theorem countTH_nil (i : Nat) : countTH [] i = 0 := rfl

theorem countTH_cons (h : TrackHistRow) (l : List TrackHistRow) (i : Nat) :
    countTH (h :: l) i = (if h.race_rider_id = i then 1 else 0) + countTH l i := by
  unfold countTH
  rw [List.filter_cons]
  by_cases hc : h.race_rider_id = i
  · rw [if_pos (by simp [hc]), if_pos hc, List.length_cons]
    omega
  · rw [if_neg (by simp [hc]), if_neg hc]
    omega

theorem countTH_append (l1 l2 : List TrackHistRow) (i : Nat) :
    countTH (l1 ++ l2) i = countTH l1 i + countTH l2 i := by
  unfold countTH
  rw [List.filter_append, List.length_append]

theorem countTH_zero_of_forall_ne {l : List TrackHistRow} {i : Nat}
    (h : ∀ x ∈ l, x.race_rider_id ≠ i) : countTH l i = 0 := by
  unfold countTH
  rw [List.length_eq_zero]
  rw [List.filter_eq_nil_iff]
  intro x hx
  simpa using h x hx

theorem countTH_filterMap_zero {g : RaceRider → Option TrackHistRow}
    (hg : ∀ x h, g x = some h → h.race_rider_id = x.id)
    {rows : List RaceRider} {i : Nat} (hi : ∀ x ∈ rows, x.id ≠ i) :
    countTH (rows.filterMap g) i = 0 := by
  apply countTH_zero_of_forall_ne
  intro x hx
  obtain ⟨y, hy, hgy⟩ := List.mem_filterMap.mp hx
  rw [hg y x hgy]
  exact hi y hy

theorem countTH_filter_filterMap {g : RaceRider → Option TrackHistRow}
    (hg : ∀ x h, g x = some h → h.race_rider_id = x.id) (cond : RaceRider → Bool) :
    ∀ (rows : List RaceRider) (r : RaceRider), (rows.map RaceRider.id).Nodup →
      r ∈ rows →
      countTH ((rows.filter cond).filterMap g) r.id
        = if cond r = true then (match g r with | some _ => 1 | none => 0) else 0 := by
  intro rows
  induction rows with
  | nil => intro r _ hr; cases hr
  | cons x rest ih =>
    intro r hnd hr
    rw [List.map_cons, List.nodup_cons] at hnd
    obtain ⟨hxid, hndrest⟩ := hnd
    have hrest_ne : ∀ y ∈ rest, y.id ≠ x.id := by
      intro y hy hyx
      exact hxid (hyx ▸ List.mem_map_of_mem RaceRider.id hy)
    rcases List.mem_cons.mp hr with rfl | hr2
    · -- r is the head
      rw [List.filter_cons]
      by_cases hc : cond r = true
      · rw [if_pos (by simpa using hc)]
        rw [List.filterMap_cons]
        cases hgr : g r with
        | none =>
          rw [if_pos hc]
          show countTH ((rest.filter cond).filterMap g) r.id = 0
          exact countTH_filterMap_zero hg
            (fun y hy => hrest_ne y (List.mem_of_mem_filter hy))
        | some th =>
          rw [if_pos hc]
          show countTH (th :: (rest.filter cond).filterMap g) r.id = 1
          rw [countTH_cons, if_pos (hg r th hgr)]
          rw [countTH_filterMap_zero hg
            (fun y hy => hrest_ne y (List.mem_of_mem_filter hy))]
      · rw [if_neg (by simpa using hc), if_neg hc]
        exact countTH_filterMap_zero hg
          (fun y hy => hrest_ne y (List.mem_of_mem_filter hy))
    · -- r is in the tail, so its id differs from the head id
      have hxr : x.id ≠ r.id := fun hh =>
        hxid (hh ▸ List.mem_map_of_mem RaceRider.id hr2)
      rw [List.filter_cons]
      by_cases hc : cond x = true
      · rw [if_pos (by simpa using hc)]
        rw [List.filterMap_cons]
        cases hgx : g x with
        | none => exact ih r hndrest hr2
        | some th =>
          show countTH (th :: (rest.filter cond).filterMap g) r.id = _
          rw [countTH_cons, if_neg (by rw [hg x th hgx]; exact hxr)]
          rw [Nat.zero_add]
          exact ih r hndrest hr2
      · rw [if_neg (by simpa using hc)]
        exact ih r hndrest hr2

/-- Evaluation of `upload_text` on the archive path: with parsable fixes, a
truthy device id and at least one race rider, the result appends the rows
produced by the selection filter and the per-entry window builder. -/
theorem upload_text_result (pid : String) (lines : List (Option LineObj))
    (riders : List RaceRider) (hist : List TrackHistRow) (now : Int)
    (hpid : ¬ pid = "")
    (hne : ¬ (_parse_text_fixes lines).isEmpty = true)
    {lastRow : RaceRider}
    (hlast : (sortById (riders.filter (fun r => r.device_id = pid))).getLast?
      = some lastRow) :
    (upload_text (some pid) lines riders hist now).2
      = hist ++ ((sortById (riders.filter (fun r => r.device_id = pid))).filter
          (fun r => r.id = lastRow.id
            || !(((hist.filter (fun h =>
                    ((sortById (riders.filter (fun rr => rr.device_id = pid))).map
                      RaceRider.id).contains h.race_rider_id)).map
                  TrackHistRow.race_rider_id).contains r.id))).filterMap
          (fun r =>
            if (filter_fixes_by_window (_parse_text_fixes lines)
                r.start_time_rfid_epoch r.finish_time_rfid_epoch).isEmpty then none
            else some { race_rider_id := r.id,
                        geojson := _build_geojson_string (filter_fixes_by_window
                          (_parse_text_fixes lines)
                          r.start_time_rfid_epoch r.finish_time_rfid_epoch),
                        fixes := filter_fixes_by_window (_parse_text_fixes lines)
                          r.start_time_rfid_epoch r.finish_time_rfid_epoch,
                        updated_at_epoch := now }) := by
  simp only [upload_text]
  rw [if_neg hne, if_neg hpid, hlast]

/-! ### Watermark and tick lemmas for the live cache worker -/

theorem find_map_set_ne (wm : List (String × Int)) (d e : String) (v : Int) (h : e ≠ d) :
    (wm.map (fun kv => if kv.1 = d then (d, v) else kv)).find? (fun kv => kv.1 = e)
      = wm.find? (fun kv => kv.1 = e) := by
  induction wm with
  | nil => rfl
  | cons kv rest ih =>
    rw [List.map_cons]
    by_cases hk : kv.1 = d
    · rw [if_pos hk]
      rw [List.find?_cons_of_neg _ (by simp; exact fun hh => h hh.symm),
        List.find?_cons_of_neg _ (by simp [hk]; exact fun hh => h hh.symm)]
      exact ih
    · rw [if_neg hk]
      by_cases he : kv.1 = e
      · rw [List.find?_cons_of_pos _ (by simp [he]), List.find?_cons_of_pos _ (by simp [he])]
      · rw [List.find?_cons_of_neg _ (by simp [he]), List.find?_cons_of_neg _ (by simp [he])]
        exact ih

theorem lookupWm_setWm_ne (wm : List (String × Int)) (d e : String) (v : Int)
    (h : e ≠ d) : lookupWm (setWm wm d v) e = lookupWm wm e := by
  unfold setWm lookupWm
  split
  · rw [find_map_set_ne wm d e v h]
  · rw [List.find?_append]
    have h2 : ([(d, v)] : List (String × Int)).find? (fun kv => kv.1 = e) = none := by
      rw [List.find?_cons_of_neg _ (by simp; exact fun hh => h hh.symm)]
      rfl
    rw [h2]
    cases wm.find? (fun kv => kv.1 = e) <;> rfl

theorem find_map_set_eq (wm : List (String × Int)) (d : String) (v : Int)
    (h : wm.any (fun kv => kv.1 = d) = true) :
    (wm.map (fun kv => if kv.1 = d then (d, v) else kv)).find? (fun kv => kv.1 = d)
      = some (d, v) := by
  induction wm with
  | nil => cases h
  | cons kv rest ih =>
    rw [List.map_cons]
    by_cases hk : kv.1 = d
    · rw [if_pos hk]
      rw [List.find?_cons_of_pos _ (by simp)]
    · rw [if_neg hk]
      rw [List.find?_cons_of_neg _ (by simp [hk])]
      apply ih
      rw [List.any_cons] at h
      simpa [hk] using h

theorem lookupWm_setWm_eq (wm : List (String × Int)) (d : String) (v : Int) :
    lookupWm (setWm wm d v) d = v := by
  unfold setWm lookupWm
  split
  · next h => rw [find_map_set_eq wm d v h]; rfl
  · next h =>
    have hn : wm.find? (fun kv => kv.1 = d) = none := by
      rw [List.find?_eq_none]
      intro kv hkv hp
      have : wm.any (fun kv => kv.1 = d) = true :=
        List.any_eq_true.mpr ⟨kv, hkv, hp⟩
      rw [this] at h
      cases h rfl
    rw [List.find?_append, hn]
    rw [List.find?_cons_of_pos _ (by simp)]
    rfl

/-- A step returning `ok` keeps points and riders, touches the watermark of
no other device, and is stable: repeating the step for the same device from any
state with the same points, riders and the resulting watermark entry is a
no-write skip. -/
theorem deviceStep_ok_cases {build : String → Option Int → Option Int → BuildOutcome}
    {now : Int} {s : WorkerState} {d : String} {s' : WorkerState}
    (h : deviceStep build now s d = Except.ok s') :
    s'.points = s.points ∧ s'.raceRiders = s.raceRiders
    ∧ (∀ e, e ≠ d → lookupWm s'.lastMaxT e = lookupWm s.lastMaxT e)
    ∧ (∀ (n2 : Int) (s2 : WorkerState), s2.points = s.points →
        s2.raceRiders = s.raceRiders →
        lookupWm s2.lastMaxT d = lookupWm s'.lastMaxT d →
        deviceStep build n2 s2 d = Except.ok s2) := by
  unfold deviceStep at h
  cases hm : maxEpochFor s.points d with
  | none =>
    simp only [hm] at h
    cases h
    refine ⟨rfl, rfl, fun e _ => rfl, ?_⟩
    intro n2 s2 hp hr hw
    unfold deviceStep
    rw [hp, hm]
  | some tmax =>
    simp only [hm] at h
    by_cases hle : tmax ≤ lookupWm s.lastMaxT d
    · rw [if_pos hle] at h
      cases h
      refine ⟨rfl, rfl, fun e _ => rfl, ?_⟩
      intro n2 s2 hp hr hw
      unfold deviceStep
      simp only [hp, hm]
      rw [if_pos (hw ▸ hle : tmax ≤ lookupWm s2.lastMaxT d)]
    · rw [if_neg hle] at h
      cases hrr : _latest_race_rider_window s.raceRiders d with
      | none =>
        simp only [hrr] at h
        cases h
        refine ⟨rfl, rfl, fun e _ => rfl, ?_⟩
        intro n2 s2 hp hr hw
        unfold deviceStep
        simp only [hp, hm]
        by_cases h2 : tmax ≤ lookupWm s2.lastMaxT d
        · rw [if_pos h2]
        · rw [if_neg h2]
          simp only [hr, hrr]
      | some trip =>
        obtain ⟨rid, se, fe⟩ := trip
        simp only [hrr] at h
        cases hb : build d se fe with
        | raises =>
          simp only [hb] at h
          exact (Except.noConfusion h)
        | fails err =>
          simp only [hb] at h
          cases h
          refine ⟨rfl, rfl, fun e _ => rfl, ?_⟩
          intro n2 s2 hp hr hw
          unfold deviceStep
          simp only [hp, hm]
          by_cases h2 : tmax ≤ lookupWm s2.lastMaxT d
          · rw [if_pos h2]
          · rw [if_neg h2]
            simp only [hr, hrr, hb]
        | built gj =>
          simp only [hb] at h
          cases h
          refine ⟨rfl, rfl, ?_, ?_⟩
          · intro e he
            exact lookupWm_setWm_ne s.lastMaxT d e tmax he
          · intro n2 s2 hp hr hw
            have hw2 : lookupWm s2.lastMaxT d = tmax := by
              rw [hw]
              exact lookupWm_setWm_eq s.lastMaxT d tmax
            unfold deviceStep
            simp only [hp, hm]
            rw [if_pos (by rw [hw2] : tmax ≤ lookupWm s2.lastMaxT d)]

theorem deviceStep_error_now {build : String → Option Int → Option Int → BuildOutcome}
    {n : Int} {s : WorkerState} {d : String} {e : Unit}
    (h : deviceStep build n s d = Except.error e) (n2 : Int) :
    deviceStep build n2 s d = Except.error e := by
  unfold deviceStep at h ⊢
  cases hm : maxEpochFor s.points d with
  | none =>
    simp only [hm] at h
    exact (Except.noConfusion h)
  | some tmax =>
    simp only [hm] at h ⊢
    by_cases hle : tmax ≤ lookupWm s.lastMaxT d
    · rw [if_pos hle] at h
      exact (Except.noConfusion h)
    · rw [if_neg hle] at h ⊢
      cases hrr : _latest_race_rider_window s.raceRiders d with
      | none =>
        simp only [hrr] at h
        exact (Except.noConfusion h)
      | some trip =>
        obtain ⟨rid, se, fe⟩ := trip
        simp only [hrr] at h ⊢
        cases hb : build d se fe with
        | raises => simp only [hb] at h ⊢
        | fails err => simp only [hb] at h; exact (Except.noConfusion h)
        | built gj => simp only [hb] at h; exact (Except.noConfusion h)

theorem tickGo_cons (build : String → Option Int → Option Int → BuildOutcome)
    (now : Int) (d : String) (rest : List String) (s : WorkerState) :
    tickGo build now (d :: rest) s
      = match deviceStep build now s d with
        | Except.ok s1 => tickGo build now rest s1
        | Except.error _ => s := rfl

theorem tickGo_cons_ok {build : String → Option Int → Option Int → BuildOutcome}
    {now : Int} {s s1 : WorkerState} {d : String}
    (h : deviceStep build now s d = Except.ok s1) (rest : List String) :
    tickGo build now (d :: rest) s = tickGo build now rest s1 := by
  rw [tickGo_cons, h]

theorem tickGo_cons_error {build : String → Option Int → Option Int → BuildOutcome}
    {now : Int} {s : WorkerState} {d : String} {e : Unit}
    (h : deviceStep build now s d = Except.error e) (rest : List String) :
    tickGo build now (d :: rest) s = s := by
  rw [tickGo_cons, h]

theorem tickGo_frame (build : String → Option Int → Option Int → BuildOutcome)
    (now : Int) : ∀ (ds : List String) (s : WorkerState),
    (tickGo build now ds s).points = s.points
      ∧ (tickGo build now ds s).raceRiders = s.raceRiders := by
  intro ds
  induction ds with
  | nil => intro s; exact ⟨rfl, rfl⟩
  | cons d rest ih =>
    intro s
    cases hstep : deviceStep build now s d with
    | ok s1 =>
      obtain ⟨hp, hr, _, _⟩ := deviceStep_ok_cases hstep
      obtain ⟨ihp, ihr⟩ := ih s1
      rw [tickGo_cons_ok hstep]
      exact ⟨by rw [ihp, hp], by rw [ihr, hr]⟩
    | error e =>
      rw [tickGo_cons_error hstep]
      exact ⟨rfl, rfl⟩

theorem tickGo_lookup_ne (build : String → Option Int → Option Int → BuildOutcome)
    (now : Int) : ∀ (ds : List String) (s : WorkerState) (d : String), d ∉ ds →
    lookupWm (tickGo build now ds s).lastMaxT d = lookupWm s.lastMaxT d := by
  intro ds
  induction ds with
  | nil => intro s d _; rfl
  | cons e rest ih =>
    intro s d hd
    have hde : d ≠ e := fun hh => hd (hh ▸ List.mem_cons_self e rest)
    have hdrest : d ∉ rest := fun hh => hd (List.mem_cons_of_mem e hh)
    cases hstep : deviceStep build now s e with
    | ok s1 =>
      rw [tickGo_cons_ok hstep, ih s1 d hdrest]
      exact (deviceStep_ok_cases hstep).2.2.1 d hde
    | error er =>
      rw [tickGo_cons_error hstep]

theorem tickGo_idem (build : String → Option Int → Option Int → BuildOutcome)
    (n n2 : Int) : ∀ ds : List String, ds.Nodup → ∀ s : WorkerState,
    tickGo build n2 ds (tickGo build n ds s) = tickGo build n ds s := by
  intro ds
  induction ds with
  | nil => intro _ s; rfl
  | cons d rest ih =>
    intro hnd s
    obtain ⟨hd, hrest⟩ := List.nodup_cons.mp hnd
    cases hstep : deviceStep build n s d with
    | error e =>
      rw [tickGo_cons_error hstep]
      rw [tickGo_cons_error (deviceStep_error_now hstep n2)]
    | ok s1 =>
      rw [tickGo_cons_ok hstep]
      obtain ⟨hp, hr, hwne, hstable⟩ := deviceStep_ok_cases hstep
      have hframe := tickGo_frame build n rest s1
      have hstep2 : deviceStep build n2 (tickGo build n rest s1) d
          = Except.ok (tickGo build n rest s1) := by
        apply hstable
        · rw [hframe.1, hp]
        · rw [hframe.2, hr]
        · rw [tickGo_lookup_ne build n rest s1 d hd]
      rw [tickGo_cons_ok hstep2]
      exact ih hrest s1

theorem tickWith_idem (build : String → Option Int → Option Int → BuildOutcome)
    (n n2 : Int) (s : WorkerState) :
    tickWith build n2 (tickWith build n s) = tickWith build n s := by
  unfold tickWith
  rw [(tickGo_frame build n (_distinct_devices s.points) s).1]
  apply tickGo_idem
  exact (List.nodup_dedup _).filter _

/-! ### Claim theorems -/

/-- Claim C4, confirmed.  `filter_fixes_by_window` with both bounds absent
returns the input unchanged; with any bound supplied, a fix survives iff its
timestamp is a parsable integer t with (start absent or t at or after start)
and (finish absent or t at or before finish); a surviving fix with an
unusable timestamp forces both bounds absent; and the Scenario C instance
filters `[100, 200, 300]` with window `[150, 250]` down to the 200 fix. -/
theorem filter_window_characterization :
    (∀ fixes : List Fix, filter_fixes_by_window fixes none none = fixes)
    ∧ (∀ (fixes : List Fix) (s f : Option Int) (p : Fix), (s ≠ none ∨ f ≠ none) →
        (p ∈ filter_fixes_by_window fixes s f ↔
          p ∈ fixes ∧ ∃ t, p.utc = some t
            ∧ (∀ a, s = some a → a ≤ t) ∧ (∀ b, f = some b → t ≤ b)))
    ∧ (∀ (fixes : List Fix) (s f : Option Int) (p : Fix),
        p ∈ filter_fixes_by_window fixes s f → p.utc = none → s = none ∧ f = none)
    ∧ filter_fixes_by_window [fixAt 100, fixAt 200, fixAt 300] (some 150) (some 250)
        = [fixAt 200] := by
  refine ⟨?_, ?_, ?_, rfl⟩
  · intro fixes
    simp [filter_fixes_by_window]
  · intro fixes s f p hsf
    have hcond : ¬(s = none ∧ f = none) := by
      rcases hsf with h | h
      · exact fun hc => h hc.1
      · exact fun hc => h hc.2
    unfold filter_fixes_by_window
    rw [if_neg hcond, List.mem_filter]
    refine and_congr_right fun _ => ?_
    rcases hp : p.utc with _ | t
    · simp
    · cases s <;> cases f <;> simp [windowKeep]
  · intro fixes s f p hmem hutc
    by_cases hcond : s = none ∧ f = none
    · exact hcond
    · unfold filter_fixes_by_window at hmem
      rw [if_neg hcond] at hmem
      have := (List.mem_filter.mp hmem).2
      rw [hutc] at this
      simp at this

/-- Witness for the C4 theorem at the Scenario C input. -/
theorem filter_window_characterization_witness :
    fixAt 200 ∈ filter_fixes_by_window [fixAt 100, fixAt 200, fixAt 300]
      (some 150) (some 250) :=
  (filter_window_characterization.2.1 [fixAt 100, fixAt 200, fixAt 300]
      (some 150) (some 250) (fixAt 200) (Or.inl (by simp))).mpr
    ⟨by simp, 200, rfl, fun a ha => by cases ha; decide, fun b hb => by cases hb; decide⟩

/-- Claim C10, confirmed.  The text-log parser drops any line whose utc, lat
or lon is zero, not only missing ones: every parsed fix has all three fields
present and nonzero, the property persists through the timing-window filter
(so such a fix reaches no built track or archive), and a line on the equator,
on the prime meridian, or with utc 0 parses to nothing. -/
theorem parse_text_fixes_drops_zero_fields :
    (∀ (lines : List (Option LineObj)) (g : Fix), g ∈ _parse_text_fixes lines →
        g.utc ≠ none ∧ g.utc ≠ some 0 ∧ g.lat ≠ 0 ∧ g.lon ≠ 0)
    ∧ (∀ (lines : List (Option LineObj)) (s f : Option Int) (g : Fix),
        g ∈ filter_fixes_by_window (_parse_text_fixes lines) s f →
        g.lat ≠ 0 ∧ g.lon ≠ 0)
    ∧ _parse_text_fixes [some { utc := some 100, lat := some 0, lon := some 5 }] = []
    ∧ _parse_text_fixes [some { utc := some 100, lat := some 3, lon := some 0 }] = []
    ∧ _parse_text_fixes [some { utc := some 0, lat := some 3, lon := some 5 }] = [] := by
  refine ⟨?_, ?_, rfl, rfl, rfl⟩
  · intro lines g h
    exact parse_text_fixes_mem h
  · intro lines s f g h
    have := parse_text_fixes_mem (mem_of_mem_filter_window h)
    exact ⟨this.2.2.1, this.2.2.2⟩

/-- Witness for the C10 theorem: the parser keeps a nonzero line, and the
membership hypotheses are discharged on it. -/
theorem parse_text_fixes_drops_zero_fields_witness :
    (fixAt 100).utc ≠ none ∧ (fixAt 100).utc ≠ some 0
      ∧ (fixAt 100).lat ≠ 0 ∧ (fixAt 100).lon ≠ 0 :=
  parse_text_fixes_drops_zero_fields.1 [some line100] (fixAt 100) (by decide)

/-- Claim C2, counterexample.  Decoding the Scenario A tuple
`[1700000000, 374000000, -1220000000, null, null, null, 1, null, 8]` with the
documented divisor 1e6 yields lat 374.0 and lon -1220.0, not the lat 37.4 and
lon -122.0 the claim states. -/
theorem convert_fix_scenarioA_descaled_values :
    _convert_fix row374 "pi-1" = some point374
    ∧ point374.lat = 374 ∧ point374.lon = -1220
    ∧ point374.lat ≠ 37.4 ∧ point374.lon ≠ -122.0 := by
  refine ⟨rfl, by norm_num [point374], by norm_num [point374],
    by norm_num [point374], by norm_num [point374]⟩

/-- Claim C2 as amended: with the lat and lon integers consistent with the
documented multipliers (37400000 = 37.4e6, -122000000 = -122.0e6), submitting
the payload for device pi-1 and running one decoder batch yields exactly one
Position row with timeEpoch 1700000000, lat 37.4, lon -122.0, fx 1, nsat 8 and
absent elevation, speed, course and hdop. -/
theorem convert_fix_scenarioA_amended :
    c8s1.points = [point37] ∧ point37.lat = 37.4 ∧ point37.lon = -122.0
      ∧ point37.ele = none ∧ point37.sog = none ∧ point37.cog = none
      ∧ point37.hdop = none := by
  refine ⟨rfl, by norm_num [point37], by norm_num [point37], rfl, rfl, rfl, rfl⟩

/-- Claim C7, counterexample.  A request whose `pid` is the empty string and
whose `f` is a list passes the `isinstance` checks of `ingest.upload`: the raw
row is stored and the route answers 200, while the claim requires a non-empty
deviceId and predicts a schema error with nothing stored. -/
theorem upload_accepts_empty_device_id :
    upload (some (PyVal.pydict [("pid", PyVal.pystr ""), ("f", PyVal.pylist [])]))
      = (200, true) := rfl

/-- Claim C9, counterexample.  Even for a fix whose coordinates survive the
six-decimal GPX quantization exactly, the GPX round trip does not reproduce
the direct GeoJSON byte for byte: the round-tripped document carries
`"src":"gpx"` where the direct serialization carries `"src":"text_log"`. -/
theorem gpx_roundtrip_geojson_not_identical :
    gpx_to_geojson (gpxRoundTrippedFixes [fix15]) ≠ some (_build_geojson_string [fix15]) := by
  decide

/-- Claim C5, counterexample.  Device pi-1 has a single (hence most recent)
race entry with no archived row, and the uploaded log contains one valid fix
at epoch 100; the entry window starts at 200, so the filtered fix list is
empty and `upload_text` appends nothing — the claim states a row is appended
for the most-recent entry always. -/
theorem upload_text_window_miss_skips_latest :
    upload_text (some "pi-1") [some line100] [rrStart200] [] 77 = (200, []) := rfl

/-- Claim C8: the code violates it.  Submitting the same one-fix payload
twice and running a decoder batch after each submission: the second batch
decodes a point that collides with the points table, the bulk insert raises,
and the `session.rollback()` discards the pending `processed_at` assignment —
so after the second batch the second raw row is still unprocessed (against the
stated intent, in the code comments, of marking rows to avoid retries) and the next fetch
returns it again. -/
theorem process_batch_collision_loses_marks :
    c8s1.raw.map RawRow.processed_at = [some 5]
    ∧ c8s2.points = c8s1.points
    ∧ c8s2.raw.map RawRow.processed_at = [some 5, none]
    ∧ (fetchUnprocessed c8s2).map RawRow.id = [1] := by
  refine ⟨rfl, rfl, rfl, rfl⟩

/-- Claim C1: the code violates it.  `gpx_worker.main` passes the keyword
arguments `start_epoch` and `finish_epoch` to `build_geojson_for_device`,
which declares neither, so the call raises `TypeError` before any GeoJSON is
built; the exception handler of the tick swallows it, and on a state with a fresh
point and a linked race entry for pi-1 the tick writes no `track_cache` row
and leaves the state unchanged. -/
theorem gpx_worker_tick_never_upserts :
    ("start_epoch" ∈ gpx_worker_build_call_kwargs
        ∧ "start_epoch" ∉ build_geojson_for_device_params)
    ∧ ("finish_epoch" ∈ gpx_worker_build_call_kwargs
        ∧ "finish_epoch" ∉ build_geojson_for_device_params)
    ∧ callHasUnexpectedKwarg = true
    ∧ gpx_worker_tick 999 wsDemo = wsDemo
    ∧ (gpx_worker_tick 999 wsDemo).trackCache = [] := by
  refine ⟨⟨by decide, by decide⟩, ⟨by decide, by decide⟩, by decide, rfl, rfl⟩

/-- Claim C3, confirmed.  Submitting the same raw payload twice yields two
RawPayload rows, while running the Fix Decoder over both leaves the Position
set identical to the set after decoding the first alone (a colliding
(deviceId, timeEpoch) fix is silently skipped, first write wins); moreover the
insert routine always agrees with the per-row fallback — a collision degrades
the bulk insert into per-row insertion instead of aborting the batch. -/
theorem decoder_idempotent_on_resubmission :
    (∀ (dev : String) (fixes : List (List (Option Int))) (r1 r2 n1 n2 : Int),
        (_process_batch_once n2 (submitRawFixes dev fixes r2
            (_process_batch_once n1 (submitRawFixes dev fixes r1 emptyPipeline)))).points
          = (_process_batch_once n1 (submitRawFixes dev fixes r1 emptyPipeline)).points
        ∧ (_process_batch_once n2 (submitRawFixes dev fixes r2
            (_process_batch_once n1 (submitRawFixes dev fixes r1 emptyPipeline)))).raw.length
            = 2)
    ∧ (∀ pts db : List Point, insertPoints pts db = perRowInsert pts db) := by
  constructor
  · intro dev fixes r1 r2 n1 n2
    constructor
    · apply batch_points_noop n2 _ (fixes.filterMap (fun fx => _convert_fix fx dev))
      · intro r hr
        have hmem := mem_raw_of_mem_fetch hr
        rcases List.mem_append.mp hmem with h1 | h2
        · obtain ⟨r0, hr0, hpay⟩ := batch_raw_payload h1
          have hr0eq : r0 = (⟨0, dev, Except.ok ⟨dev, fixes⟩, r1, none, none⟩ : RawRow) := by
            have hs0 : (submitRawFixes dev fixes r1 emptyPipeline).raw
                = [⟨0, dev, Except.ok ⟨dev, fixes⟩, r1, none, none⟩] := rfl
            rw [hs0] at hr0
            simpa using hr0
          rw [hr0eq] at hpay
          exact decodeRawPoints_of_payload hpay
        · have hreq : r = (⟨(_process_batch_once n1
              (submitRawFixes dev fixes r1 emptyPipeline)).raw.length, dev,
              Except.ok ⟨dev, fixes⟩, r2, none, none⟩ : RawRow) := by
            simpa using h2
          rw [hreq]
          rfl
      · intro p hp
        have hr0 : (⟨0, dev, Except.ok ⟨dev, fixes⟩, r1, none, none⟩ : RawRow)
            ∈ fetchUnprocessed (submitRawFixes dev fixes r1 emptyPipeline) := by
          have hf : fetchUnprocessed (submitRawFixes dev fixes r1 emptyPipeline)
              = [⟨0, dev, Except.ok ⟨dev, fixes⟩, r1, none, none⟩] := rfl
          rw [hf]
          simp
        exact batch_covers n1 _ hr0 p hp
    · rw [batch_raw_length, submit_raw_length, batch_raw_length, submit_raw_length]
      rfl
  · exact insertPoints_eq_perRowInsert

/-- The two GeoJSON serializations can never coincide: at the position right
after the shared document head, one carries the src tag `gpx` and the other
`text_log`. -/
theorem featureCollectionJson_src_ne (c1 c2 : List (ℚ × ℚ)) :
    featureCollectionJson "gpx" c1 ≠ featureCollectionJson "text_log" c2 := by
  intro h
  unfold featureCollectionJson at h
  have hd := congrArg String.data h
  simp only [String.data_append, List.append_assoc] at hd
  have hd2 := List.append_cancel_left hd
  simp at hd2

/-- Coordinate pairs read back from the GPX round trip are the input
coordinates quantized to six decimal places. -/
theorem gpxRoundTrippedFixes_coords (l : List Fix) :
    (gpxRoundTrippedFixes l).map (fun p => (p.lon, p.lat))
      = l.map (fun p => (round6 p.lon, round6 p.lat)) := by
  unfold gpxRoundTrippedFixes
  rw [List.map_map]
  rfl

/-- Claim C9 as amended: for a non-empty fix list, converting the GPX round
trip to GeoJSON yields the feature collection whose src tag is `gpx` and whose
coordinates are the input coordinates rounded to six decimal places, while the
direct serialization is the same document with src `text_log` and unrounded
coordinates; in particular the two strings are never byte-identical (they
differ at the src tag even when every coordinate is exactly representable at
six decimals). -/
theorem gpx_roundtrip_geojson_characterization :
    ∀ fixes : List Fix, fixes ≠ [] →
      gpx_to_geojson (gpxRoundTrippedFixes fixes)
          = some (featureCollectionJson "gpx"
              (fixes.map (fun p => (round6 p.lon, round6 p.lat))))
      ∧ _build_geojson_string fixes
          = featureCollectionJson "text_log" (fixes.map (fun p => (p.lon, p.lat)))
      ∧ gpx_to_geojson (gpxRoundTrippedFixes fixes)
          ≠ some (_build_geojson_string fixes) := by
  intro fixes hne
  have h1 : gpx_to_geojson (gpxRoundTrippedFixes fixes)
      = some (featureCollectionJson "gpx"
          (fixes.map (fun p => (round6 p.lon, round6 p.lat)))) := by
    unfold gpx_to_geojson
    rw [gpxRoundTrippedFixes_coords]
    cases fixes with
    | nil => exact absurd rfl hne
    | cons a tl => rfl
  refine ⟨h1, rfl, ?_⟩
  rw [h1]
  intro hcontra
  exact featureCollectionJson_src_ne _ _ (Option.some.inj hcontra)

/-- Witness for the C9 amended theorem at a concrete one-fix list whose
coordinates are six-decimal exact. -/
theorem gpx_roundtrip_geojson_characterization_witness :
    gpx_to_geojson (gpxRoundTrippedFixes [fix15])
        = some (featureCollectionJson "gpx"
            ([fix15].map (fun p => (round6 p.lon, round6 p.lat))))
    ∧ gpx_to_geojson (gpxRoundTrippedFixes [fix15])
        ≠ some (_build_geojson_string [fix15]) :=
  ⟨(gpx_roundtrip_geojson_characterization [fix15] (List.cons_ne_nil fix15 [])).1,
   (gpx_roundtrip_geojson_characterization [fix15] (List.cons_ne_nil fix15 [])).2.2⟩

/-- Claim C5 as amended: on a text-log upload, an entry of the device that
already has an archived row and is not the most-recent entry is skipped — its
archive row count is unchanged; an entry that is the most-recent one or has no
archived row yet gets exactly one appended row, provided its own timing window
keeps at least one fix (a window miss skips the entry, which is what the
counterexample exhibits and the only correction the claim needs).  Race-rider
ids are assumed unique (primary key). -/
theorem upload_text_rebuild_selection :
    ∀ (pid : String) (lines : List (Option LineObj)) (riders : List RaceRider)
      (hist : List TrackHistRow) (now : Int),
      pid ≠ "" →
      ((sortById (riders.filter (fun r => r.device_id = pid))).map RaceRider.id).Nodup →
      ∀ r ∈ sortById (riders.filter (fun rr => rr.device_id = pid)),
        (some r.id ≠ latestIdFor riders pid →
          r.id ∈ hist.map TrackHistRow.race_rider_id →
          countTH (upload_text (some pid) lines riders hist now).2 r.id
            = countTH hist r.id)
        ∧ ((some r.id = latestIdFor riders pid
              ∨ r.id ∉ hist.map TrackHistRow.race_rider_id) →
            filter_fixes_by_window (_parse_text_fixes lines)
              r.start_time_rfid_epoch r.finish_time_rfid_epoch ≠ [] →
            countTH (upload_text (some pid) lines riders hist now).2 r.id
              = countTH hist r.id + 1) := by
  intro pid lines riders hist now hpid hnd r hr
  by_cases hemp : (_parse_text_fixes lines).isEmpty = true
  · have hfxnil : _parse_text_fixes lines = [] := by
      cases hl : _parse_text_fixes lines with
      | nil => rfl
      | cons a tl => rw [hl] at hemp; simp at hemp
    have hup : upload_text (some pid) lines riders hist now = (422, hist) := by
      simp only [upload_text]
      rw [if_pos hemp]
    constructor
    · intro _ _
      rw [hup]
    · intro _ hfil
      exact absurd (by rw [hfxnil, filter_window_nil]) hfil
  · cases hlast : (sortById (riders.filter (fun rr => rr.device_id = pid))).getLast? with
    | none =>
      rw [List.getLast?_eq_none_iff] at hlast
      rw [hlast] at hr
      cases hr
    | some lastRow =>
      have hres := upload_text_result pid lines riders hist now hpid hemp hlast
      set fixes := _parse_text_fixes lines with hfixdef
      set rows := sortById (riders.filter (fun rr => rr.device_id = pid)) with hrowsdef
      set existing := (hist.filter (fun h =>
          (rows.map RaceRider.id).contains h.race_rider_id)).map
          TrackHistRow.race_rider_id with hexdef
      set cond := fun r : RaceRider =>
          (r.id = lastRow.id || !(existing.contains r.id)) with hconddef
      set g := fun r : RaceRider =>
          if (filter_fixes_by_window fixes
              r.start_time_rfid_epoch r.finish_time_rfid_epoch).isEmpty then none
          else some ({ race_rider_id := r.id,
                       geojson := _build_geojson_string (filter_fixes_by_window fixes
                         r.start_time_rfid_epoch r.finish_time_rfid_epoch),
                       fixes := filter_fixes_by_window fixes
                         r.start_time_rfid_epoch r.finish_time_rfid_epoch,
                       updated_at_epoch := now } : TrackHistRow) with hgdef
      have hg : ∀ (x : RaceRider) (th : TrackHistRow), g x = some th →
          th.race_rider_id = x.id := by
        intro x th hgx
        simp only [hgdef] at hgx
        by_cases hh : (filter_fixes_by_window fixes
            x.start_time_rfid_epoch x.finish_time_rfid_epoch).isEmpty = true
        · rw [if_pos hh] at hgx
          cases hgx
        · rw [if_neg hh] at hgx
          cases hgx
          rfl
      have hkey := countTH_filter_filterMap hg cond rows r hnd hr
      have hlatval : latestIdFor riders pid = some lastRow.id := by
        unfold latestIdFor
        rw [← hrowsdef, hlast]
        rfl
      constructor
      · intro hlat hin
        have hne2 : r.id ≠ lastRow.id := fun hh => hlat (by rw [hlatval, hh])
        have hmemex : r.id ∈ existing := by
          rw [hexdef]
          obtain ⟨th, hth, hthid⟩ := List.mem_map.mp hin
          refine List.mem_map.mpr ⟨th, List.mem_filter.mpr ⟨hth, ?_⟩, hthid⟩
          rw [hthid]
          exact List.elem_iff.mpr (List.mem_map_of_mem RaceRider.id hr)
        have hcontains : existing.contains r.id = true := List.elem_iff.mpr hmemex
        have hcnd : cond r = false := by
          simp only [hconddef]
          simp [hne2, hcontains, hmemex]
        rw [hres, countTH_append, hkey, if_neg (by simp [hcnd])]
        omega
      · intro hsel hfil
        have hcnd : cond r = true := by
          simp only [hconddef]
          rcases hsel with hl | hnin
          · have hrl : r.id = lastRow.id := by
              rw [hlatval] at hl
              exact Option.some.inj hl
            simp [hrl]
          · have hnotmem : r.id ∉ existing := by
              intro hm
              rw [hexdef] at hm
              obtain ⟨th, hthf, hthid⟩ := List.mem_map.mp hm
              exact hnin (List.mem_map.mpr ⟨th, List.mem_of_mem_filter hthf, hthid⟩)
            have hcf : existing.contains r.id = false :=
              Bool.eq_false_iff.mpr (fun hcc => hnotmem (List.elem_iff.mp hcc))
            simp only [hcf, Bool.not_false, Bool.or_true]
        have hfe : (filter_fixes_by_window fixes
            r.start_time_rfid_epoch r.finish_time_rfid_epoch).isEmpty = false := by
          cases hc2 : filter_fixes_by_window fixes
              r.start_time_rfid_epoch r.finish_time_rfid_epoch with
          | nil => exact absurd hc2 hfil
          | cons a tl => rfl
        have hgsome : ∃ th, g r = some th := by
          simp only [hgdef]
          rw [if_neg (by simp [hfe])]
          exact ⟨_, rfl⟩
        obtain ⟨th, hth⟩ := hgsome
        rw [hres, countTH_append, hkey, if_pos hcnd, hth]

/-- Witness for the C5 amended theorem, on the Scenario B shape: entry 1 has
an archive and is not the most recent (count stays 1 = unchanged), entry 2 is
the most recent with no archive and an all-pass window (count goes 0 to 1). -/
theorem upload_text_rebuild_selection_witness :
    countTH (upload_text (some "pi-1") [some line100] [rrOne, rrTwo] [histRow1] 9).2 1
      = countTH [histRow1] 1
    ∧ countTH (upload_text (some "pi-1") [some line100] [rrOne, rrTwo] [histRow1] 9).2 2
      = countTH [histRow1] 2 + 1 :=
  ⟨(upload_text_rebuild_selection "pi-1" [some line100] [rrOne, rrTwo] [histRow1] 9
      (by decide) (by decide) rrOne (by decide)).1 (by decide) (by decide),
   (upload_text_rebuild_selection "pi-1" [some line100] [rrOne, rrTwo] [histRow1] 9
      (by decide) (by decide) rrTwo (by decide)).2 (Or.inl (by decide)) (by decide)⟩

/-- Claim C6, confirmed.  If a tick observes, for device d, a maximum point
epoch at or below the in-memory watermark entry (`last_max_t.get(did, -1)`),
the loop body for d returns the state unchanged — no rebuild (the result does
not depend on the builder) and no write; and, whatever the builder does, a
second tick run directly after a first one (hence with no new Position rows)
changes nothing: zero writes to the track cache.  The statement quantifies
over the behavior of the `build_geojson_for_device` call, so it covers both
the shipped builder and any repaired one. -/
theorem watermark_gate_no_write :
    (∀ (build : String → Option Int → Option Int → BuildOutcome) (now : Int)
        (s : WorkerState) (d : String) (t : Int),
        maxEpochFor s.points d = some t → t ≤ lookupWm s.lastMaxT d →
        deviceStep build now s d = Except.ok s)
    ∧ (∀ (build : String → Option Int → Option Int → BuildOutcome) (n n2 : Int)
        (s : WorkerState),
        tickWith build n2 (tickWith build n s) = tickWith build n s) := by
  constructor
  · intro build now s d t hm hle
    unfold deviceStep
    simp only [hm]
    rw [if_pos hle]
  · intro build n n2 s
    exact tickWith_idem build n n2 s

/-- Witness for the C6 theorem: on a state whose watermark for pi-1 already
equals the maximum epoch, the step is a skip. -/
theorem watermark_gate_no_write_witness :
    deviceStep gpx_worker_build 999 wsSkip "pi-1" = Except.ok wsSkip :=
  watermark_gate_no_write.1 gpx_worker_build 999 wsSkip "pi-1" 1700000000 rfl (by decide)

/-- Claim C7 as amended: `upload` stores a raw row iff the JSON body is a
truthy (non-empty) object whose `pid` value is a string — possibly empty, the
route checks only `isinstance` — and whose `f` value is a list; every other
input is rejected with 400, 422 or 500 and stores nothing. -/
theorem upload_schema_characterization :
    ∀ body : Option PyVal,
      ((upload body).2 = true ↔
        ∃ d, body = some (PyVal.pydict d) ∧ d ≠ []
          ∧ (∃ s, pyGet d "pid" = PyVal.pystr s) ∧ (∃ l, pyGet d "f" = PyVal.pylist l))
      ∧ ((upload body).2 = false →
          (upload body).1 = 400 ∨ (upload body).1 = 422 ∨ (upload body).1 = 500) := by
  intro body
  cases body with
  | none => simp [upload]
  | some v =>
    cases v with
    | pydict d =>
      rcases hd : d with _ | ⟨kv, rest⟩
      · simp [upload, PyVal.truthy]
      · rw [← hd]
        have hne : d ≠ [] := by rw [hd]; exact List.cons_ne_nil kv rest
        have htr : (PyVal.pydict d).truthy = true := by
          simp [PyVal.truthy, hd]
        rcases hp : pyGet d "pid" <;> rcases hf : pyGet d "f" <;>
          simp [upload, htr, hp, hf, hne]
    | pynull => simp [upload, PyVal.truthy]
    | pybool b =>
      cases b <;> simp [upload, PyVal.truthy]
    | pyint n =>
      by_cases hn : n = 0 <;> simp [upload, PyVal.truthy, hn]
    | pyfloat q =>
      by_cases hq : q = 0 <;> simp [upload, PyVal.truthy, hq]
    | pystr s =>
      by_cases hs : s = "" <;> simp [upload, PyVal.truthy, hs]
    | pylist l =>
      cases l <;> simp [upload, PyVal.truthy]

/-- Witness for the C7 amended theorem: a missing JSON body answers with an
error status. -/
theorem upload_schema_characterization_witness :
    (upload none).1 = 400 ∨ (upload none).1 = 422 ∨ (upload none).1 = 500 :=
  (upload_schema_characterization none).2 rfl

end Enduro
